import Mathlib

/-!
Verification of `symfit/core/minimizers.py` (minimizer adapter layer).

The module is integration glue around two external solver entry points
(`scipy.optimize.minimize` and `leastsqbound`).  We embed the adapter's own
logic — keyword-argument marshaling (`wrap_func`), constraint translation
(`scipy_constraints`), the bounds property, the attribute-setting order of the
`__init__` chains (Python MRO), and the construction of the result dicts —
as executable Lean definitions.  The external solvers themselves are abstract
function parameters (`MinimizeCall → OptimizeResult`,
`LeastsqCall → LeastsqResult`); where a claim needs a documented property of
the external solver (e.g. that the returned vector has the shape of `x0`) it
appears as an explicit hypothesis.

Numbers are modelled as `ℚ`.  Python dicts are modelled as association lists
built with Python's insertion semantics (`pyDict`): insertion order of first
occurrence, last value wins.  A Python attribute that may be absent is an
outer `Option`; a Python value that may be `None` is an inner `Option`.
-/

set_option autoImplicit false

/-- Keyword arguments passed to a user callable: a dict from parameter name
to numeric value, as an association list in dict order. -/
abbrev Kwargs := List (String × ℚ)

/-- `symfit.core.argument.Parameter`: a named parameter with an initial value
and optional bounds (`None` meaning unbounded). -/
structure Parameter where
  name : String
  value : ℚ
  min : Option ℚ := none
  max : Option ℚ := none
deriving DecidableEq

/-- One step of Python dict construction: insert key `k` with value `v`.
If the key is present the value is replaced in place (position kept);
otherwise the pair is appended. -/
def dictInsert {α β : Type} [DecidableEq α] (d : List (α × β)) (k : α) (v : β) :
    List (α × β) :=
  if k ∈ d.map Prod.fst then
    d.map (fun kv => if kv.1 = k then (kv.1, v) else kv)
  else
    d ++ [(k, v)]

/-- Python `dict(pairs)`: fold the pairs into a dict left to right. -/
def pyDict {α β : Type} [DecidableEq α] (l : List (α × β)) : List (α × β) :=
  l.foldl (fun d kv => dictInsert d kv.1 kv.2) []

/-- Modelled from the spec: `key2str` lives in `symfit.core.support`, which is
not part of the given source; per the spec's keyword-argument marshaling
contract ("turning a positional vector into named-argument calls",
"one per parameter, by name") it rebuilds a dict keyed by `Parameter`
objects into a dict keyed by the parameters' name strings. -/
def key2str (d : List (Parameter × ℚ)) : Kwargs :=
  pyDict (d.map (fun kv => (kv.1.name, kv.2)))

/-- The sympy relational class tagging a constraint (`constraint.constraint_type`). -/
inductive SympyRel : Type
  | Eq
  | Ge
  | Le
  | Lt
  | Gt
  | Ne
deriving DecidableEq

/-- A constraint object as consumed by `ScipyMinimize.scipy_constraints`:
a callable returning a vector, a relational tag, and (optionally — the
attribute may be absent) a `numerical_jacobian` matrix of component
callables. -/
structure Constraint where
  constraint_type : SympyRel
  call : List ℚ → List ℚ
  numerical_jacobian : Option (List (List (List ℚ → ℚ)))

/-- The `types` dict of `scipy_constraints`: scipy only distinguishes two
kinds of constraint.  Lookup of any other key is a `KeyError`, modelled as
`none`. -/
def constraint_types : SympyRel → Option String
  | SympyRel.Eq => some "eq"
  | SympyRel.Ge => some "ineq"
  | _ => none

/-- The `'fun'` lambda of a translated constraint entry:
`lambda p, x, c: c(*(list(x.values()) + list(p)))[0]`.
Indexing `[0]` on an empty output is an `IndexError`, modelled as `none`. -/
def cons_fun_lambda (p : List ℚ) (x : List (String × ℚ)) (c : Constraint) :
    Option ℚ :=
  (c.call (x.map Prod.snd ++ p)).head?

/-- The `'jac'` lambda of a translated constraint entry:
`lambda p, x, c: [component(*(list(x.values()) + list(p)))
                  for component in c.numerical_jacobian[0]]`.
A missing `numerical_jacobian` attribute (`AttributeError`) and an empty
matrix (`IndexError` on `[0]`) are both modelled as `none`. -/
def cons_jac_lambda (p : List ℚ) (x : List (String × ℚ)) (c : Constraint) :
    Option (List ℚ) :=
  (c.numerical_jacobian.bind List.head?).map
    (fun row => row.map (fun comp => comp (x.map Prod.snd ++ p)))

/-- One entry of the tuple returned by `scipy_constraints`: the dict
`{'type': …, 'fun': …, 'jac': …, 'args': …}`.  `cjac` is an `Option` so that
the (counterfactual) absence of the `'jac'` key is representable; the code
always populates it. -/
structure ConsEntry where
  ctype : String
  cfun : List ℚ → List (String × ℚ) → Constraint → Option ℚ
  cjac : Option (List ℚ → List (String × ℚ) → Constraint → Option (List ℚ))
  cargs : List (String × ℚ) × Constraint

/-- `ScipyMinimize.scipy_constraints(constraints, data)`: translate each
constraint into a scipy-compatible entry.  The `types[constraint_type]`
lookup raises (`none`) during translation, before anything is returned and
without any solver being involved (no solver appears in this function). -/
def scipy_constraints : List Constraint → List (String × ℚ) →
    Option (List ConsEntry)
  | [], _ => some []
  | c :: rest, data =>
    match constraint_types c.constraint_type with
    | none => none
    | some t =>
      (scipy_constraints rest data).map
        (fun es =>
          ({ ctype := t, cfun := cons_fun_lambda, cjac := some cons_jac_lambda,
             cargs := (data, c) } : ConsEntry) :: es)

/-- The attribute state of a minimizer object.  `β` is the return type of the
objective callable (scalar `ℚ` for general minimizers, a residual vector for
MINPACK); `δ` is the return type of the jacobian callable.  An outer `none`
means the attribute was never set; an inner `none` is Python `None`. -/
structure MinimizerState (β δ : Type) where
  objective : Option (Kwargs → β) := none
  params : Option (List Parameter) := none
  absolute_sigma : Option Bool := none
  constraints : Option (Option (List Constraint)) := none
  jacobian : Option (Option (Kwargs → δ)) := none
  wrapped_objective : Option (Option (List ℚ → β)) := none
  wrapped_jacobian : Option (Option (List ℚ → δ)) := none

/-- `ScipyMinimize.wrap_func` (non-`None` branch): call `func` via keyword
arguments, `parameters = key2str(dict(zip(self.params, values)))`. -/
def ScipyMinimize.wrap_func {β : Type} (ps : List Parameter)
    (func : Kwargs → β) : List ℚ → β :=
  fun values => func (key2str (pyDict (ps.zip values)))

/-- `ScipyMinimize.wrap_func` including the `if func is None: return None`
check. -/
def ScipyMinimize.wrap_funcO {β : Type} (ps : List Parameter)
    (func : Option (Kwargs → β)) : Option (List ℚ → β) :=
  func.map (ScipyMinimize.wrap_func ps)

/-- `BaseMinimizer.initial_guesses`: `[p.value for p in self.params]`. -/
def BaseMinimizer.initial_guesses {β δ : Type} (m : MinimizerState β δ) :
    List ℚ :=
  (m.params.getD []).map Parameter.value

/-- `BoundedMinimizer.bounds`: `[(p.min, p.max) for p in self.params]`. -/
def BoundedMinimizer.bounds (ps : List Parameter) :
    List (Option ℚ × Option ℚ) :=
  ps.map (fun p => (p.min, p.max))

/-- The argument record of one call to `scipy.optimize.minimize`. -/
structure MinimizeCall (β δ : Type) where
  objective : Option (List ℚ → β)
  x0 : List ℚ
  bounds : Option (List (Option ℚ × Option ℚ))
  constraints : Option (List Constraint)
  jac : Option (List ℚ → δ)
  method : Option String
  options : List (String × ℚ)

/-- The `scipy.optimize.OptimizeResult` attributes read by the adapter
(plus `success`, which scipy always carries, so that non-convergence is
representable).  `fval` is scipy's `fun` attribute. -/
structure OptimizeResult where
  x : List ℚ
  success : Bool
  message : String
  fval : ℚ
  nit : ℤ
  nfev : ℤ
deriving DecidableEq

/-- A value stored in a diagnostics dict: an integer count or a vector. -/
inductive InfoVal : Type
  | num (n : ℤ)
  | vec (v : List ℚ)
deriving DecidableEq

/-- A solver diagnostics dict (`infodic`). -/
abbrev Infodic := List (String × InfoVal)

/-- The result dict built by the `execute` methods.  An outer `none` means
the key is absent from the dict; `pcov`'s inner `Option` is the Python value
(`None` or a matrix). -/
structure FitResults where
  popt : Option (List ℚ) := none
  pcov : Option (Option (List (List ℚ))) := none
  infodic : Option Infodic := none
  mesg : Option String := none
  ier : Option ℤ := none
  value : Option ℚ := none

/-- Lookup of one key in a result's diagnostics dict. -/
def infodicLookup (r : FitResults) (k : String) : Option InfoVal :=
  r.infodic.bind (fun d => (d.find? (fun kv => kv.1 == k)).map Prod.snd)

/-- The argument record built by `ScipyMinimize.execute` for the call to
`scipy.optimize.minimize`: wrapped objective, `self.initial_guesses`, the
`bounds`/`jacobian` arguments, `self.constraints` passed through raw, plus
the pass-through keyword options (the `@keywordonly(tol=1e-9)` decorator only
injects a default into these options). -/
def ScipyMinimize.mkMinimizeCall {β δ : Type} (m : MinimizerState β δ)
    (bounds : Option (List (Option ℚ × Option ℚ)))
    (jacobian : Option (List ℚ → δ)) (method : Option String)
    (options : List (String × ℚ)) : MinimizeCall β δ :=
  { objective := m.wrapped_objective.join
    x0 := BaseMinimizer.initial_guesses m
    bounds := bounds
    constraints := m.constraints.join
    jac := jacobian
    method := method
    options := options }

/-- The body of `ScipyMinimize.execute` after the solver call: the result
dict `dict(popt=ans.x, pcov=None, infodic={'nfev': ans.nfev},
mesg=ans.message, ier=ans.nit, value=ans.fun)`. -/
def generalFitResults (ans : OptimizeResult) : FitResults :=
  { popt := some ans.x
    pcov := some none
    infodic := some [("nfev", InfoVal.num ans.nfev)]
    mesg := some ans.message
    ier := some ans.nit
    value := some ans.fval }

/-- `ScipyMinimize.execute`: one call to the general solver, then the result
dict.  The solver is an abstract function argument. -/
def ScipyMinimize.execute {β δ : Type}
    (solver : MinimizeCall β δ → OptimizeResult) (m : MinimizerState β δ)
    (bounds : Option (List (Option ℚ × Option ℚ)))
    (jacobian : Option (List ℚ → δ)) (method : Option String)
    (options : List (String × ℚ)) : FitResults :=
  generalFitResults (solver (ScipyMinimize.mkMinimizeCall m bounds jacobian method options))

/-- `ScipyGradientMinimize.execute`: delegates with
`jacobian=self.wrapped_jacobian`. -/
def ScipyGradientMinimize.execute {β δ : Type}
    (solver : MinimizeCall β δ → OptimizeResult) (m : MinimizerState β δ)
    (bounds : Option (List (Option ℚ × Option ℚ))) (method : Option String)
    (options : List (String × ℚ)) : FitResults :=
  ScipyMinimize.execute solver m bounds m.wrapped_jacobian.join method options

/-- `BFGS.execute`: `method='BFGS'`, no bounds argument (defaults to `None`). -/
def BFGS.execute (solver : MinimizeCall ℚ (List ℚ) → OptimizeResult)
    (m : MinimizerState ℚ (List ℚ)) (options : List (String × ℚ)) : FitResults :=
  ScipyGradientMinimize.execute solver m none (some "BFGS") options

/-- `SLSQP.execute`: `method='SLSQP'`, `bounds=self.bounds`. -/
def SLSQP.execute (solver : MinimizeCall ℚ (List ℚ) → OptimizeResult)
    (m : MinimizerState ℚ (List ℚ)) (options : List (String × ℚ)) : FitResults :=
  ScipyGradientMinimize.execute solver m
    (some (BoundedMinimizer.bounds (m.params.getD []))) (some "SLSQP") options

/-- `LBFGSB.execute`: `method='L-BFGS-B'`, `bounds=self.bounds`. -/
def LBFGSB.execute (solver : MinimizeCall ℚ (List ℚ) → OptimizeResult)
    (m : MinimizerState ℚ (List ℚ)) (options : List (String × ℚ)) : FitResults :=
  ScipyGradientMinimize.execute solver m
    (some (BoundedMinimizer.bounds (m.params.getD []))) (some "L-BFGS-B") options

/-- `NelderMead.execute`: `method='Nelder-Mead'`, no bounds, no jacobian
(`ScipyMinimize.execute` defaults). -/
def NelderMead.execute (solver : MinimizeCall ℚ (List ℚ) → OptimizeResult)
    (m : MinimizerState ℚ (List ℚ)) (options : List (String × ℚ)) : FitResults :=
  ScipyMinimize.execute solver m none none (some "Nelder-Mead") options

/-- Construction of a `BFGS` minimizer.  The `let` chain mirrors the Python
`__init__` call order along the MRO
`BFGS → ScipyGradientMinimize → ScipyMinimize → GradientMinimizer → BaseMinimizer`. -/
def mkBFGS (objective : Kwargs → ℚ) (parameters : List Parameter)
    (absolute_sigma : Bool) (jacobianArg : Option (Kwargs → List ℚ)) :
    MinimizerState ℚ (List ℚ) :=
  let s0 : MinimizerState ℚ (List ℚ) := {}
  -- ScipyMinimize.__init__ before super():
  --   self.constraints = []; self.jacobian = None; self.wrapped_jacobian = None
  let s1 := { s0 with constraints := some (some []), jacobian := some none,
                      wrapped_jacobian := some none }
  -- BaseMinimizer.__init__ (bottom of the super chain)
  let s2 := { s1 with objective := some objective, params := some parameters,
                      absolute_sigma := some absolute_sigma }
  -- GradientMinimizer.__init__ after super(): self.jacobian = jacobian
  let s3 := { s2 with jacobian := some jacobianArg }
  -- ScipyMinimize.__init__ after super():
  --   self.wrapped_objective = self.wrap_func(self.objective)
  let s4 := { s3 with wrapped_objective :=
                        some (some (ScipyMinimize.wrap_func parameters objective)) }
  -- ScipyGradientMinimize.__init__ after super():
  --   self.wrapped_jacobian = self.wrap_func(self.jacobian)
  { s4 with wrapped_jacobian :=
              some (ScipyMinimize.wrap_funcO parameters jacobianArg) }

/-- Construction of an `LBFGSB` minimizer: same `__init__` chain as `BFGS`
(`BoundedMinimizer` adds no `__init__`). -/
def mkLBFGSB (objective : Kwargs → ℚ) (parameters : List Parameter)
    (absolute_sigma : Bool) (jacobianArg : Option (Kwargs → List ℚ)) :
    MinimizerState ℚ (List ℚ) :=
  mkBFGS objective parameters absolute_sigma jacobianArg

/-- Construction of an `SLSQP` minimizer.  MRO:
`SLSQP → ScipyGradientMinimize → ScipyMinimize → GradientMinimizer →
ConstrainedMinimizer → BoundedMinimizer → BaseMinimizer`.  Note that
`ScipyMinimize.__init__` first sets `self.constraints = []` and
`ConstrainedMinimizer.__init__` later overwrites it with the `constraints`
keyword argument (default `None`). -/
def mkSLSQP (objective : Kwargs → ℚ) (parameters : List Parameter)
    (absolute_sigma : Bool) (jacobianArg : Option (Kwargs → List ℚ))
    (constraintsArg : Option (List Constraint)) : MinimizerState ℚ (List ℚ) :=
  let s0 : MinimizerState ℚ (List ℚ) := {}
  -- ScipyMinimize.__init__ before super()
  let s1 := { s0 with constraints := some (some []), jacobian := some none,
                      wrapped_jacobian := some none }
  -- BaseMinimizer.__init__
  let s2 := { s1 with objective := some objective, params := some parameters,
                      absolute_sigma := some absolute_sigma }
  -- ConstrainedMinimizer.__init__ after super(): self.constraints = constraints
  let s3 := { s2 with constraints := some constraintsArg }
  -- GradientMinimizer.__init__ after super(): self.jacobian = jacobian
  let s4 := { s3 with jacobian := some jacobianArg }
  -- ScipyMinimize.__init__ after super()
  let s5 := { s4 with wrapped_objective :=
                        some (some (ScipyMinimize.wrap_func parameters objective)) }
  -- ScipyGradientMinimize.__init__ after super()
  { s5 with wrapped_jacobian :=
              some (ScipyMinimize.wrap_funcO parameters jacobianArg) }

/-- Construction of a `NelderMead` minimizer.  MRO:
`NelderMead → ScipyMinimize → BaseMinimizer`; no gradient or constraint
mixin, so `jacobian` and `wrapped_jacobian` keep the `None` set by
`ScipyMinimize.__init__`. -/
def mkNelderMead (objective : Kwargs → ℚ) (parameters : List Parameter)
    (absolute_sigma : Bool) : MinimizerState ℚ (List ℚ) :=
  let s0 : MinimizerState ℚ (List ℚ) := {}
  let s1 := { s0 with constraints := some (some []), jacobian := some none,
                      wrapped_jacobian := some none }
  let s2 := { s1 with objective := some objective, params := some parameters,
                      absolute_sigma := some absolute_sigma }
  { s2 with wrapped_objective :=
              some (some (ScipyMinimize.wrap_func parameters objective)) }

/-- The argument record of one call to `leastsqbound`.  `Dfun` is the
derivative-function argument of the external least-squares solver; the
adapter's call site has `Dfun=self.jacobian` commented out, so the argument
keeps its default `None`. -/
structure LeastsqCall where
  func : Option (List ℚ → List ℚ)
  Dfun : Option (List ℚ → List (List ℚ))
  x0 : List ℚ
  bounds : List (Option ℚ × Option ℚ)
  full_output : Bool
  options : List (String × ℚ)

/-- The 5-tuple returned by `leastsqbound(..., full_output=True)`. -/
structure LeastsqResult where
  popt : List ℚ
  pcov : Option (List (List ℚ))
  infodic : Infodic
  mesg : String
  ier : ℤ

/-- Construction of a `MINPACK` minimizer.  MRO:
`MINPACK → GradientMinimizer → BoundedMinimizer → BaseMinimizer`.
`MINPACK.__init__` sets `self.jacobian = None` before the super chain, and
`GradientMinimizer.__init__` then stores the `jacobian` keyword argument;
finally `self.wrapped_objective = ScipyMinimize.wrap_func(self, self.objective)`.
No `constraints` attribute is ever created. -/
def mkMINPACK (objective : Kwargs → List ℚ) (parameters : List Parameter)
    (absolute_sigma : Bool) (jacobianArg : Option (Kwargs → List (List ℚ))) :
    MinimizerState (List ℚ) (List (List ℚ)) :=
  let s0 : MinimizerState (List ℚ) (List (List ℚ)) := {}
  -- MINPACK.__init__ before super(): self.jacobian = None
  let s1 := { s0 with jacobian := some none }
  -- BaseMinimizer.__init__ (bottom of the super chain)
  let s2 := { s1 with objective := some objective, params := some parameters,
                      absolute_sigma := some absolute_sigma }
  -- GradientMinimizer.__init__ after super(): self.jacobian = jacobian
  let s3 := { s2 with jacobian := some jacobianArg }
  -- MINPACK.__init__ after super():
  --   self.wrapped_objective = ScipyMinimize.wrap_func(self, self.objective)
  { s3 with wrapped_objective :=
              some (some (ScipyMinimize.wrap_func parameters objective)) }

/-- The argument record built by `MINPACK.execute` for the call to
`leastsqbound`: wrapped objective, `x0=self.initial_guesses`,
`bounds=self.bounds`, `full_output=True`, and no `Dfun` (the line passing
the jacobian is commented out in the source). -/
def MINPACK.mkLeastsqCall (m : MinimizerState (List ℚ) (List (List ℚ)))
    (options : List (String × ℚ)) : LeastsqCall :=
  { func := m.wrapped_objective.join
    Dfun := none
    x0 := BaseMinimizer.initial_guesses m
    bounds := BoundedMinimizer.bounds (m.params.getD [])
    full_output := true
    options := options }

/-- `MINPACK.execute`: one call to `leastsqbound`, then the result dict
`dict(popt=popt, infodic=infodic, mesg=mesg, ier=ier)` — note that the
`pcov=pcov` line is commented out in the source, so the result dict has no
`pcov` key and no `value` key. -/
def MINPACK.execute (lsolver : LeastsqCall → LeastsqResult)
    (m : MinimizerState (List ℚ) (List (List ℚ)))
    (options : List (String × ℚ)) : FitResults :=
  let r := lsolver (MINPACK.mkLeastsqCall m options)
  { popt := some r.popt
    pcov := none
    infodic := some r.infodic
    mesg := some r.mesg
    ier := some r.ier
    value := none }

/-! ## Python dict lemmas -/

/-- Folding `dictInsert` over pairs whose keys are fresh just appends them. -/
theorem foldl_dictInsert_nodup {α β : Type} [DecidableEq α] :
    ∀ (l acc : List (α × β)),
      (((acc ++ l).map Prod.fst).Nodup) →
      List.foldl (fun d kv => dictInsert d kv.1 kv.2) acc l = acc ++ l := by
  intro l
  induction l with
  | nil => intro acc _; simp
  | cons kv rest ih =>
    intro acc h
    rw [List.map_append] at h
    have hdis := (List.nodup_append.mp h).2.2
    have hk : kv.1 ∉ acc.map Prod.fst := by
      intro hmem
      exact hdis hmem (by simp)
    have hins : dictInsert acc kv.1 kv.2 = acc ++ [kv] := by
      simp [dictInsert, hk]
    have hre : (acc ++ [kv]) ++ rest = acc ++ kv :: rest := by
      rw [List.append_assoc, List.singleton_append]
    calc List.foldl (fun d kv => dictInsert d kv.1 kv.2) acc (kv :: rest)
        = List.foldl (fun d kv => dictInsert d kv.1 kv.2) (acc ++ [kv]) rest := by
          rw [List.foldl_cons, hins]
      _ = (acc ++ [kv]) ++ rest := by
          apply ih
          rw [hre, List.map_append]
          exact h
      _ = acc ++ kv :: rest := hre

/-- `pyDict` is the identity on association lists with distinct keys. -/
theorem pyDict_of_nodup {α β : Type} [DecidableEq α] (l : List (α × β))
    (h : (l.map Prod.fst).Nodup) : pyDict l = l := by
  have := foldl_dictInsert_nodup l [] (by simpa using h)
  simpa [pyDict] using this

/-! ## Claims -/

/-- C2: for every objective callable `f` and every numeric vector `v` whose
length equals the number of parameters (with distinct parameter names, as
keyword arguments require), the wrapped objective produced by `wrap_func`
applied to `v` equals `f` called with keyword arguments pairing each
parameter's name with the component of `v` at that parameter's position.
The wrapping depends only on the parameter list fixed at construction and
on `f`, as its arguments show. -/
theorem wrap_func_keyword_marshaling {β : Type} (ps : List Parameter)
    (f : Kwargs → β) (v : List ℚ)
    (hnd : (ps.map Parameter.name).Nodup) (hlen : v.length = ps.length) :
    ScipyMinimize.wrap_func ps f v = f ((ps.map Parameter.name).zip v) := by
  have hle : ps.length ≤ v.length := le_of_eq hlen.symm
  have hfst : (ps.zip v).map Prod.fst = ps := List.map_fst_zip ps v hle
  have hpsnd : ps.Nodup := hnd.of_map
  have h1 : pyDict (ps.zip v) = ps.zip v :=
    pyDict_of_nodup _ (by rw [hfst]; exact hpsnd)
  have h2 : ((ps.zip v).map (fun kv => (kv.1.name, kv.2))).map Prod.fst
      = ps.map Parameter.name := by
    rw [List.map_map]
    have hcomp : (Prod.fst ∘ fun kv : Parameter × ℚ => (kv.1.name, kv.2))
        = (Parameter.name ∘ Prod.fst) := rfl
    rw [hcomp, ← List.map_map, hfst]
  have h3 : pyDict ((ps.zip v).map (fun kv => (kv.1.name, kv.2)))
      = (ps.zip v).map (fun kv => (kv.1.name, kv.2)) :=
    pyDict_of_nodup _ (by rw [h2]; exact hnd)
  have h4 : (ps.zip v).map (fun kv : Parameter × ℚ => (kv.1.name, kv.2))
      = (ps.map Parameter.name).zip v := by
    rw [List.zip_map_left]
    exact List.map_congr_left (fun a _ => rfl)
  show f (key2str (pyDict (ps.zip v))) = f ((ps.map Parameter.name).zip v)
  rw [h1]
  show f (pyDict ((ps.zip v).map (fun kv => (kv.1.name, kv.2))))
      = f ((ps.map Parameter.name).zip v)
  rw [h3, h4]

/-- C2 witness: concrete evaluation of the marshaling equality. -/
theorem wrap_func_keyword_marshaling_witness :
    (([⟨"a", 1, none, none⟩, ⟨"b", 2, none, none⟩] : List Parameter).map
        Parameter.name).Nodup ∧
    ([(3 : ℚ), 4]).length
      = ([⟨"a", 1, none, none⟩, ⟨"b", 2, none, none⟩] : List Parameter).length ∧
    ScipyMinimize.wrap_func [⟨"a", 1, none, none⟩, ⟨"b", 2, none, none⟩]
        (fun kw : Kwargs => (kw.map Prod.snd).foldl (· + ·) 0) [(3 : ℚ), 4]
      = (fun kw : Kwargs => (kw.map Prod.snd).foldl (· + ·) 0)
          ((([⟨"a", 1, none, none⟩, ⟨"b", 2, none, none⟩] : List Parameter).map
              Parameter.name).zip [(3 : ℚ), 4]) :=
  ⟨by decide, by decide,
    wrap_func_keyword_marshaling _ _ _ (by decide) (by decide)⟩

/-- Unfolding lemma: translating a list headed by a supported constraint. -/
theorem scipy_constraints_cons_supported (c : Constraint) (rest : List Constraint)
    (data : List (String × ℚ)) (t : String)
    (ht : constraint_types c.constraint_type = some t) :
    scipy_constraints (c :: rest) data =
      (scipy_constraints rest data).map (fun es =>
        ({ ctype := t, cfun := cons_fun_lambda, cjac := some cons_jac_lambda,
           cargs := (data, c) } : ConsEntry) :: es) := by
  simp only [scipy_constraints]
  rw [ht]

/-- Unfolding lemma: an unsupported head kind fails the whole translation. -/
theorem scipy_constraints_cons_unsupported (c : Constraint) (rest : List Constraint)
    (data : List (String × ℚ)) (ht : constraint_types c.constraint_type = none) :
    scipy_constraints (c :: rest) data = none := by
  unfold scipy_constraints
  rw [ht]

/-- An unsupported relational kind means the `types` lookup fails. -/
theorem constraint_types_eq_none (r : SympyRel)
    (hne : r ≠ SympyRel.Eq) (hnge : r ≠ SympyRel.Ge) :
    constraint_types r = none := by
  cases r <;> first
    | exact absurd rfl hne
    | exact absurd rfl hnge
    | rfl

/-- C3: constraint translation maps every equality constraint to an entry of
kind "eq" and every ≥-constraint to kind "ineq"; a list containing a
constraint of any other comparison kind makes `scipy_constraints` itself
fail (`none`) — the error is the value of the translation, produced before
any solver could be called (`scipy_constraints` involves no solver). -/
theorem scipy_constraints_kind_translation (cs : List Constraint)
    (data : List (String × ℚ)) :
    ((∀ c ∈ cs, c.constraint_type = SympyRel.Eq ∨ c.constraint_type = SympyRel.Ge) →
       ∃ es, scipy_constraints cs data = some es ∧
         List.Forall₂ (fun (c : Constraint) (e : ConsEntry) =>
           (c.constraint_type = SympyRel.Eq → e.ctype = "eq") ∧
           (c.constraint_type = SympyRel.Ge → e.ctype = "ineq")) cs es)
    ∧ ((∃ c ∈ cs, c.constraint_type ≠ SympyRel.Eq ∧ c.constraint_type ≠ SympyRel.Ge) →
       scipy_constraints cs data = none) := by
  induction cs with
  | nil =>
    refine ⟨fun _ => ⟨[], rfl, List.Forall₂.nil⟩, fun hex => ?_⟩
    rcases hex with ⟨c, hc, _⟩
    exact absurd hc (List.not_mem_nil c)
  | cons c rest ih =>
    constructor
    · intro hall
      rcases ih.1 (fun c' hc' => hall c' (List.mem_cons_of_mem _ hc')) with
        ⟨es, hes, hf⟩
      rcases hall c (List.mem_cons_self c rest) with hEq | hGe
      · refine ⟨({ ctype := "eq", cfun := cons_fun_lambda,
                   cjac := some cons_jac_lambda,
                   cargs := (data, c) } : ConsEntry) :: es, ?_, ?_⟩
        · rw [scipy_constraints_cons_supported c rest data "eq"
              (by rw [hEq]; rfl), hes]
          rfl
        · exact List.Forall₂.cons
            ⟨fun _ => rfl, fun h => SympyRel.noConfusion (hEq.symm.trans h)⟩ hf
      · refine ⟨({ ctype := "ineq", cfun := cons_fun_lambda,
                   cjac := some cons_jac_lambda,
                   cargs := (data, c) } : ConsEntry) :: es, ?_, ?_⟩
        · rw [scipy_constraints_cons_supported c rest data "ineq"
              (by rw [hGe]; rfl), hes]
          rfl
        · exact List.Forall₂.cons
            ⟨fun h => SympyRel.noConfusion (hGe.symm.trans h), fun _ => rfl⟩ hf
    · intro hex
      rcases hex with ⟨c', hc', hne, hnge⟩
      rcases List.mem_cons.mp hc' with hhead | htail
      · subst hhead
        exact scipy_constraints_cons_unsupported c' rest data
          (constraint_types_eq_none _ hne hnge)
      · rcases h : constraint_types c.constraint_type with _ | t
        · exact scipy_constraints_cons_unsupported c rest data h
        · rw [scipy_constraints_cons_supported c rest data t h,
              ih.2 ⟨c', htail, hne, hnge⟩]
          rfl

/-- C3 witness: a supported pair translates, an unsupported kind fails. -/
theorem scipy_constraints_kind_translation_witness :
    (∃ es, scipy_constraints
        [{ constraint_type := SympyRel.Eq, call := fun _ => [0],
           numerical_jacobian := none },
         { constraint_type := SympyRel.Ge, call := fun _ => [1],
           numerical_jacobian := none }] [] = some es ∧
      List.Forall₂ (fun (c : Constraint) (e : ConsEntry) =>
        (c.constraint_type = SympyRel.Eq → e.ctype = "eq") ∧
        (c.constraint_type = SympyRel.Ge → e.ctype = "ineq"))
        [{ constraint_type := SympyRel.Eq, call := fun _ => [0],
           numerical_jacobian := none },
         { constraint_type := SympyRel.Ge, call := fun _ => [1],
           numerical_jacobian := none }] es)
    ∧ scipy_constraints
        [{ constraint_type := SympyRel.Lt, call := fun _ => [0],
           numerical_jacobian := none }] [] = none :=
  ⟨(scipy_constraints_kind_translation _ _).1
      (by intro c hc
          rcases List.mem_cons.mp hc with h | h
          · subst h; exact Or.inl rfl
          · rcases List.mem_cons.mp h with h' | h'
            · subst h'; exact Or.inr rfl
            · exact absurd h' (List.not_mem_nil c)),
    (scipy_constraints_kind_translation _ _).2
      ⟨{ constraint_type := SympyRel.Lt, call := fun _ => [0],
         numerical_jacobian := none },
        List.mem_cons_self _ _,
        fun h => SympyRel.noConfusion h,
        fun h => SympyRel.noConfusion h⟩⟩

/-- C4 counterexample: the claim says the entry's `'jac'` callable is present
only when the constraint has a jacobian; but translating a constraint with no
`numerical_jacobian` still yields an entry whose `'jac'` key is populated. -/
theorem scipy_constraints_jac_always_present_cex :
    (scipy_constraints
        [{ constraint_type := SympyRel.Eq, call := fun _ => [0],
           numerical_jacobian := none }] []).map
        (fun es => es.map (fun e => e.cjac.isSome)) = some [true]
    ∧ ({ constraint_type := SympyRel.Eq, call := fun _ => [0],
         numerical_jacobian := none } : Constraint).numerical_jacobian = none :=
  ⟨rfl, rfl⟩

/-- C4 (amended): every translated entry stores `(data, constraint)` as its
extra arguments; its `'fun'` callable evaluates the constraint callable on
the concatenation of the fixed data values and the trial parameter vector
and returns the first component of the result; its `'jac'` callable is
ALWAYS present (not only when the constraint has a jacobian), and when
invoked it returns the list of the jacobian's first-row components evaluated
at the same concatenated arguments if the constraint has a jacobian with at
least one row, and fails (`none`) otherwise. -/
theorem scipy_constraints_entry_semantics (cs : List Constraint)
    (data : List (String × ℚ)) (es : List ConsEntry)
    (h : scipy_constraints cs data = some es) :
    List.Forall₂ (fun (c : Constraint) (e : ConsEntry) =>
      e.cargs = (data, c) ∧
      (∀ p, e.cfun p data c = (c.call (data.map Prod.snd ++ p)).head?) ∧
      e.cjac = some cons_jac_lambda ∧
      (∀ p, (c.numerical_jacobian = none → cons_jac_lambda p data c = none) ∧
        (∀ mj row, c.numerical_jacobian = some mj → mj.head? = some row →
          cons_jac_lambda p data c
            = some (row.map (fun comp => comp (data.map Prod.snd ++ p))))))
      cs es := by
  induction cs generalizing es with
  | nil =>
    have : es = [] := by
      have h' : (some [] : Option (List ConsEntry)) = some es := h ▸ rfl
      exact (Option.some.inj h').symm
    subst this
    exact List.Forall₂.nil
  | cons c rest ih =>
    rcases ht : constraint_types c.constraint_type with _ | t
    · rw [scipy_constraints_cons_unsupported c rest data ht] at h
      cases h
    · rw [scipy_constraints_cons_supported c rest data t ht] at h
      rcases hrest : scipy_constraints rest data with _ | es'
      · rw [hrest] at h; cases h
      · rw [hrest] at h
        have hes : es =
            ({ ctype := t, cfun := cons_fun_lambda,
               cjac := some cons_jac_lambda,
               cargs := (data, c) } : ConsEntry) :: es' :=
          (Option.some.inj h).symm
        subst hes
        refine List.Forall₂.cons ⟨rfl, fun _ => rfl, rfl, fun p => ⟨?_, ?_⟩⟩
          (ih es' hrest)
        · intro hn
          simp [cons_jac_lambda, hn]
        · intro mj row hm hr
          simp [cons_jac_lambda, hm, hr]

/-- C4 witness: a ≥-constraint with a one-row jacobian, translated with one
fixed data value, satisfies the amended entry semantics. -/
theorem scipy_constraints_entry_semantics_witness :
    List.Forall₂ (fun (c : Constraint) (e : ConsEntry) =>
      e.cargs = ([("d", (5 : ℚ))], c) ∧
      (∀ p, e.cfun p [("d", (5 : ℚ))] c
        = (c.call (([("d", (5 : ℚ))].map Prod.snd) ++ p)).head?) ∧
      e.cjac = some cons_jac_lambda ∧
      (∀ p, (c.numerical_jacobian = none →
          cons_jac_lambda p [("d", (5 : ℚ))] c = none) ∧
        (∀ mj row, c.numerical_jacobian = some mj → mj.head? = some row →
          cons_jac_lambda p [("d", (5 : ℚ))] c
            = some (row.map (fun comp =>
                comp (([("d", (5 : ℚ))].map Prod.snd) ++ p))))))
      [{ constraint_type := SympyRel.Ge, call := fun args => [args.foldl (· + ·) 0],
         numerical_jacobian := some [[fun _ => 1]] }]
      [{ ctype := "ineq", cfun := cons_fun_lambda, cjac := some cons_jac_lambda,
         cargs := ([("d", (5 : ℚ))],
           { constraint_type := SympyRel.Ge,
             call := fun args => [args.foldl (· + ·) 0],
             numerical_jacobian := some [[fun _ => 1]] }) }] :=
  scipy_constraints_entry_semantics _ _ _ rfl

/-- A concrete parameter with a lower bound, for witnesses. -/
def pA : Parameter := { name := "a", value := 1, min := some 0, max := none }

/-- A concrete parameter with an upper bound, for witnesses. -/
def pB : Parameter := { name := "b", value := 2, min := none, max := some 3 }

/-- A concrete parameter list, for witnesses. -/
def psW : List Parameter := [pA, pB]

/-- A concrete objective callable, for witnesses. -/
def objW : Kwargs → ℚ := fun kw => (kw.map Prod.snd).foldl (· + ·) 0

/-- A concrete general solver that echoes `x0` back, for witnesses. -/
def solverEcho : MinimizeCall ℚ (List ℚ) → OptimizeResult := fun c =>
  { x := c.x0, success := true, message := "ok", fval := 0, nit := 3, nfev := 4 }

/-- A concrete non-converging general solver, for witnesses. -/
def solverFail : MinimizeCall ℚ (List ℚ) → OptimizeResult := fun c =>
  { x := c.x0, success := false, message := "maximum iterations exceeded",
    fval := 1, nit := 7, nfev := 9 }

/-- A concrete least-squares solver that echoes `x0` and reports a
covariance matrix, for witnesses. -/
def lsolverEcho : LeastsqCall → LeastsqResult := fun c =>
  { popt := c.x0, pcov := some [[2]], infodic := [("nfev", InfoVal.num 6)],
    mesg := "done", ier := 1 }

/-- C5: the derived bounds list has exactly one `(min, max)` pair per
parameter, in parameter order, with an unset bound kept as `none`
(unbounded) rather than the pair being omitted; and the bounded minimizers
`SLSQP` and `L-BFGS-B` pass exactly this list to the solver. -/
theorem bounds_one_pair_per_parameter (ps : List Parameter)
    (obj : Kwargs → ℚ) (asig : Bool) (jac : Option (Kwargs → List ℚ))
    (cons : Option (List Constraint))
    (solver : MinimizeCall ℚ (List ℚ) → OptimizeResult)
    (opts : List (String × ℚ)) :
    (BoundedMinimizer.bounds ps).length = ps.length
    ∧ (∀ i (h : i < ps.length),
        (BoundedMinimizer.bounds ps).get? i
          = some ((ps.get ⟨i, h⟩).min, (ps.get ⟨i, h⟩).max))
    ∧ SLSQP.execute solver (mkSLSQP obj ps asig jac cons) opts
        = generalFitResults (solver (ScipyMinimize.mkMinimizeCall
            (mkSLSQP obj ps asig jac cons)
            (some (BoundedMinimizer.bounds ps))
            ((mkSLSQP obj ps asig jac cons).wrapped_jacobian.join)
            (some "SLSQP") opts))
    ∧ LBFGSB.execute solver (mkLBFGSB obj ps asig jac) opts
        = generalFitResults (solver (ScipyMinimize.mkMinimizeCall
            (mkLBFGSB obj ps asig jac)
            (some (BoundedMinimizer.bounds ps))
            ((mkLBFGSB obj ps asig jac).wrapped_jacobian.join)
            (some "L-BFGS-B") opts)) := by
  refine ⟨List.length_map ps _, fun i h => ?_, rfl, rfl⟩
  simp only [BoundedMinimizer.bounds, List.get?_eq_getElem?, List.getElem?_map,
    List.getElem?_eq_getElem h, Option.map_some']
  rfl

/-- C5 witness: concrete bounds pairs, including unset components. -/
theorem bounds_one_pair_per_parameter_witness :
    (0 < psW.length)
    ∧ (BoundedMinimizer.bounds psW).get? 0
        = some ((psW.get ⟨0, by decide⟩).min, (psW.get ⟨0, by decide⟩).max) :=
  ⟨by decide,
    (bounds_one_pair_per_parameter psW objW true none none solverEcho []).2.1 0
      (by decide)⟩

/-- C6: the general-minimizer `execute` maps the solver's output into the
result record as: `popt` is the solver's best vector `x`, `value` is the
objective value `fun` at the optimum, `mesg` is the status message, the
iteration count `nit` is stored in the generic `ier` field, and the
evaluation count is nested under the diagnostics dict `infodic` as
`'nfev'`. -/
theorem general_execute_result_mapping {β δ : Type}
    (solver : MinimizeCall β δ → OptimizeResult) (m : MinimizerState β δ)
    (bounds : Option (List (Option ℚ × Option ℚ)))
    (jacobian : Option (List ℚ → δ)) (method : Option String)
    (options : List (String × ℚ)) :
    (ScipyMinimize.execute solver m bounds jacobian method options).popt
      = some (solver (ScipyMinimize.mkMinimizeCall m bounds jacobian method options)).x
    ∧ (ScipyMinimize.execute solver m bounds jacobian method options).value
      = some (solver (ScipyMinimize.mkMinimizeCall m bounds jacobian method options)).fval
    ∧ (ScipyMinimize.execute solver m bounds jacobian method options).mesg
      = some (solver (ScipyMinimize.mkMinimizeCall m bounds jacobian method options)).message
    ∧ (ScipyMinimize.execute solver m bounds jacobian method options).ier
      = some (solver (ScipyMinimize.mkMinimizeCall m bounds jacobian method options)).nit
    ∧ infodicLookup (ScipyMinimize.execute solver m bounds jacobian method options) "nfev"
      = some (InfoVal.num
          (solver (ScipyMinimize.mkMinimizeCall m bounds jacobian method options)).nfev) :=
  ⟨rfl, rfl, rfl, rfl, rfl⟩

/-- C7: the general-minimizer `execute` is a total function of the solver's
answer: even when the solver reports non-convergence (`success = false`) it
returns the normal result record carrying the solver's message and
iteration/evaluation counts as data; and its result depends on the solver
only through the single call the adapter makes (no retry: two solvers that
agree on that one call yield identical results). -/
theorem execute_nonconvergence_as_data {β δ : Type}
    (solver solver' : MinimizeCall β δ → OptimizeResult)
    (m : MinimizerState β δ) (bounds : Option (List (Option ℚ × Option ℚ)))
    (jacobian : Option (List ℚ → δ)) (method : Option String)
    (options : List (String × ℚ)) :
    ((solver (ScipyMinimize.mkMinimizeCall m bounds jacobian method options)).success
        = false →
      ScipyMinimize.execute solver m bounds jacobian method options
        = generalFitResults
            (solver (ScipyMinimize.mkMinimizeCall m bounds jacobian method options))
      ∧ (ScipyMinimize.execute solver m bounds jacobian method options).mesg
        = some (solver (ScipyMinimize.mkMinimizeCall m bounds jacobian method options)).message
      ∧ (ScipyMinimize.execute solver m bounds jacobian method options).ier
        = some (solver (ScipyMinimize.mkMinimizeCall m bounds jacobian method options)).nit
      ∧ infodicLookup (ScipyMinimize.execute solver m bounds jacobian method options) "nfev"
        = some (InfoVal.num
            (solver (ScipyMinimize.mkMinimizeCall m bounds jacobian method options)).nfev))
    ∧ ((solver (ScipyMinimize.mkMinimizeCall m bounds jacobian method options)
        = solver' (ScipyMinimize.mkMinimizeCall m bounds jacobian method options)) →
      ScipyMinimize.execute solver m bounds jacobian method options
        = ScipyMinimize.execute solver' m bounds jacobian method options) :=
  ⟨fun _ => ⟨rfl, rfl, rfl, rfl⟩,
    fun h => by unfold ScipyMinimize.execute; rw [h]⟩

/-- C7 witness: a concrete failing solver still yields the normal record. -/
theorem execute_nonconvergence_as_data_witness :
    ((solverFail (ScipyMinimize.mkMinimizeCall (mkNelderMead objW psW true)
        none none (some "Nelder-Mead") [])).success = false)
    ∧ ScipyMinimize.execute solverFail (mkNelderMead objW psW true)
        none none (some "Nelder-Mead") []
      = generalFitResults
          (solverFail (ScipyMinimize.mkMinimizeCall (mkNelderMead objW psW true)
            none none (some "Nelder-Mead") []))
    ∧ ScipyMinimize.execute solverFail (mkNelderMead objW psW true)
        none none (some "Nelder-Mead") []
      = ScipyMinimize.execute solverFail (mkNelderMead objW psW true)
          none none (some "Nelder-Mead") [] :=
  ⟨rfl,
    ((execute_nonconvergence_as_data solverFail solverFail
        (mkNelderMead objW psW true) none none (some "Nelder-Mead") []).1 rfl).1,
    (execute_nonconvergence_as_data solverFail solverFail
        (mkNelderMead objW psW true) none none (some "Nelder-Mead") []).2 rfl⟩

/-- C1: for both execute paths, the best-fit vector `popt` in the returned
result is the solver's output vector, which — under the external solver's
documented contract that the returned vector has the shape of `x0` — has the
same length as the parameter list; and the `x0` handed to the solver lists
the parameters' values in the order supplied at construction, fixing the
coordinate convention that aligns component `i` with parameter `i`. -/
theorem popt_length_and_order :
    (∀ {β δ : Type} (solver : MinimizeCall β δ → OptimizeResult)
        (m : MinimizerState β δ) (ps : List Parameter)
        (bounds : Option (List (Option ℚ × Option ℚ)))
        (jacobian : Option (List ℚ → δ)) (method : Option String)
        (options : List (String × ℚ)),
      m.params = some ps →
      (∀ c, (solver c).x.length = c.x0.length) →
      ∃ xs, (ScipyMinimize.execute solver m bounds jacobian method options).popt
          = some xs
        ∧ xs.length = ps.length
        ∧ (ScipyMinimize.mkMinimizeCall m bounds jacobian method options).x0
            = ps.map Parameter.value)
    ∧ (∀ (lsolver : LeastsqCall → LeastsqResult)
        (mm : MinimizerState (List ℚ) (List (List ℚ))) (qs : List Parameter)
        (options : List (String × ℚ)),
      mm.params = some qs →
      (∀ c, (lsolver c).popt.length = c.x0.length) →
      ∃ ys, (MINPACK.execute lsolver mm options).popt = some ys
        ∧ ys.length = qs.length
        ∧ (MINPACK.mkLeastsqCall mm options).x0 = qs.map Parameter.value) := by
  constructor
  · intro β δ solver m ps bounds jacobian method options hp hs
    have hx0 : (ScipyMinimize.mkMinimizeCall m bounds jacobian method options).x0
        = ps.map Parameter.value := by
      simp [ScipyMinimize.mkMinimizeCall, BaseMinimizer.initial_guesses, hp]
    refine ⟨(solver (ScipyMinimize.mkMinimizeCall m bounds jacobian method options)).x,
      rfl, ?_, hx0⟩
    rw [hs, hx0, List.length_map]
  · intro lsolver mm qs options hp hs
    have hx0 : (MINPACK.mkLeastsqCall mm options).x0 = qs.map Parameter.value := by
      simp [MINPACK.mkLeastsqCall, BaseMinimizer.initial_guesses, hp]
    refine ⟨(lsolver (MINPACK.mkLeastsqCall mm options)).popt, rfl, ?_, hx0⟩
    rw [hs, hx0, List.length_map]

/-- C1 witness: both paths at concrete inputs with shape-preserving
solvers. -/
theorem popt_length_and_order_witness :
    ((mkNelderMead objW psW true).params = some psW)
    ∧ (∃ xs, (ScipyMinimize.execute solverEcho (mkNelderMead objW psW true)
          none none (some "Nelder-Mead") []).popt = some xs
        ∧ xs.length = psW.length
        ∧ (ScipyMinimize.mkMinimizeCall (mkNelderMead objW psW true)
            none none (some "Nelder-Mead") []).x0 = psW.map Parameter.value)
    ∧ (∃ ys, (MINPACK.execute lsolverEcho
            (mkMINPACK (fun _ => [0]) psW true none) []).popt = some ys
        ∧ ys.length = psW.length
        ∧ (MINPACK.mkLeastsqCall (mkMINPACK (fun _ => [0]) psW true none) []).x0
          = psW.map Parameter.value) :=
  ⟨rfl,
    popt_length_and_order.1 solverEcho (mkNelderMead objW psW true) psW
      none none (some "Nelder-Mead") [] rfl (fun _ => rfl),
    popt_length_and_order.2 lsolverEcho (mkMINPACK (fun _ => [0]) psW true none)
      psW [] rfl (fun _ => rfl)⟩

/-- C8 counterexample: the least-squares solver returns a covariance matrix,
but `MINPACK.execute` does not place it (or any covariance) in the result —
the `pcov` key is absent, contradicting the claim that the least-squares
path populates the covariance field from the solver's output. -/
theorem minpack_result_omits_pcov_cex :
    (lsolverEcho (MINPACK.mkLeastsqCall
        (mkMINPACK (fun _ => [0]) psW true none) [])).pcov = some [[2]]
    ∧ (MINPACK.execute lsolverEcho
        (mkMINPACK (fun _ => [0]) psW true none) []).pcov = none :=
  ⟨rfl, rfl⟩

/-- C8 (amended): the general-minimizer path stores an explicit `None`
covariance (`pcov` key present, value `None`), while the least-squares
(MINPACK) path omits the covariance key entirely — the `pcov=pcov` line is
commented out — even though the solver hands a covariance matrix back.
Neither path populates a covariance matrix. -/
theorem pcov_population_paths {β δ : Type}
    (solver : MinimizeCall β δ → OptimizeResult) (m : MinimizerState β δ)
    (bounds : Option (List (Option ℚ × Option ℚ)))
    (jacobian : Option (List ℚ → δ)) (method : Option String)
    (options : List (String × ℚ))
    (lsolver : LeastsqCall → LeastsqResult)
    (mm : MinimizerState (List ℚ) (List (List ℚ)))
    (options₂ : List (String × ℚ)) :
    (ScipyMinimize.execute solver m bounds jacobian method options).pcov
      = some none
    ∧ (MINPACK.execute lsolver mm options₂).pcov = none :=
  ⟨rfl, rfl⟩

/-- C9: `MINPACK.execute` invokes the least-squares solver with no
derivative function (`Dfun` stays `None`; the line passing the stored
jacobian is commented out), so the call — and hence the returned result —
is the same whatever jacobian was supplied at construction, and the solver
is left to estimate derivatives numerically. -/
theorem minpack_ignores_jacobian (obj : Kwargs → List ℚ) (ps : List Parameter)
    (asig : Bool) (jac₁ jac₂ : Option (Kwargs → List (List ℚ)))
    (lsolver : LeastsqCall → LeastsqResult) (options : List (String × ℚ)) :
    (MINPACK.mkLeastsqCall (mkMINPACK obj ps asig jac₁) options).Dfun = none
    ∧ MINPACK.execute lsolver (mkMINPACK obj ps asig jac₁) options
      = MINPACK.execute lsolver (mkMINPACK obj ps asig jac₂) options :=
  ⟨rfl, rfl⟩

/-- C10: with no explicit constraints argument at construction, the
constraints value forwarded to the general solver is the empty list for the
minimizers without the constrained capability (`BFGS`, `L-BFGS-B`,
`Nelder-Mead`, whose `constraints` attribute keeps the `[]` set by
`ScipyMinimize.__init__`), and `None` for `SLSQP`, whose
`ConstrainedMinimizer.__init__` overwrites the initially-set empty list with
the default `None`. -/
theorem default_constraints_forwarding (obj : Kwargs → ℚ) (ps : List Parameter)
    (asig : Bool) (jac : Option (Kwargs → List ℚ))
    (options : List (String × ℚ)) :
    (mkBFGS obj ps asig jac).constraints = some (some [])
    ∧ (mkLBFGSB obj ps asig jac).constraints = some (some [])
    ∧ (mkNelderMead obj ps asig).constraints = some (some [])
    ∧ (mkSLSQP obj ps asig jac none).constraints = some none
    ∧ (ScipyMinimize.mkMinimizeCall (mkBFGS obj ps asig jac) none
        ((mkBFGS obj ps asig jac).wrapped_jacobian.join)
        (some "BFGS") options).constraints = some []
    ∧ (ScipyMinimize.mkMinimizeCall (mkLBFGSB obj ps asig jac)
        (some (BoundedMinimizer.bounds ps))
        ((mkLBFGSB obj ps asig jac).wrapped_jacobian.join)
        (some "L-BFGS-B") options).constraints = some []
    ∧ (ScipyMinimize.mkMinimizeCall (mkNelderMead obj ps asig) none none
        (some "Nelder-Mead") options).constraints = some []
    ∧ (ScipyMinimize.mkMinimizeCall (mkSLSQP obj ps asig jac none)
        (some (BoundedMinimizer.bounds ps))
        ((mkSLSQP obj ps asig jac none).wrapped_jacobian.join)
        (some "SLSQP") options).constraints = none :=
  ⟨rfl, rfl, rfl, rfl, rfl, rfl, rfl, rfl⟩
